import Mathlib

/-!
Verification of `examples/plot_sampling_target_usage.py`.

The script is straight-line glue code: it loads the iris data set, imbalances
it with `make_imbalance`, resamples it with `RandomOverSampler`,
`RandomUnderSampler` and `TomekLinks` under several shapes of the
`sampling_target` parameter, and renders a pie chart of the class
distribution after each step.  We embed

* the `collections.Counter` construction used by `plot_pie` and the print
  statements (an insertion-ordered association list, as in Python dicts);
* the two `ratio_multiplier` callables, including the IEEE-754 binary64
  semantics of `int(value * multiplier[key])`;
* the script itself as a list of statements executed over a small state
  (value-level tokens for the label vectors, the `sampling_target`
  variable, matplotlib figures, collected external calls);
* the row-selection behaviour of the external samplers (modelled from the
  spec, their code is not part of this slice).
-/

/-! ### The `collections.Counter` model

`Counter(y)` iterates over `y` and increments a per-key counter, inserting
unseen keys at the end: an insertion-ordered association list. -/

/-- One step of `Counter` construction: increment the count of key `k`,
appending `(k, 1)` when `k` is unseen (Python dicts keep insertion order). -/
def incr : List (ℕ × ℕ) → ℕ → List (ℕ × ℕ)
  | [], k => [(k, 1)]
  | (a, c) :: t, k => if a = k then (a, c + 1) :: t else (a, c) :: incr t k

/-- `collections.Counter(y)` as used in `plot_pie` and the print calls. -/
def Counter (y : List ℕ) : List (ℕ × ℕ) :=
  y.foldl incr []

/-- Dictionary lookup in an association list (`target_stats[key]`). -/
def lookupC : List (ℕ × ℕ) → ℕ → Option ℕ
  | [], _ => none
  | p :: t, k => if p.1 = k then some p.2 else lookupC t k

/-- Sum of the counts of a counter (`sum(Counter(y).values())`). -/
def sumValues (m : List (ℕ × ℕ)) : ℕ :=
  (m.map Prod.snd).sum

/-- Keys of a counter, in insertion order (`target_stats.keys()`). -/
def keysC (m : List (ℕ × ℕ)) : List ℕ :=
  m.map Prod.fst

/-- Invariant tying a partially built counter to the processed part `p`
of the label vector. -/
def counterInv (m : List (ℕ × ℕ)) (p : List ℕ) : Prop :=
  (keysC m).Nodup ∧
    ∀ k : ℕ, lookupC m k = if p.count k = 0 then none else some (p.count k)

/-! ### IEEE-754 binary64 semantics of `int(value * multiplier[key])`

Python floats are IEEE-754 binary64.  The literals `0.5`, `0.7`, `0.95`
denote the doubles `m / 2^53` with the significands below, and a product
`n * (m / 2^53)` (`n` a nonnegative integer) is rounded to 53 significant
bits with round-to-nearest, ties-to-even; `int` then truncates toward
zero. -/

/-- Significand of the double closest to `0.5` (exact). -/
def m05 : ℕ := 4503599627370496

/-- Significand of the double closest to `0.7` (`0.7 = m07 / 2^53` is the
value of the Python literal `0.7`). -/
def m07 : ℕ := 6305039478318694

/-- Significand of the double closest to `0.95`. -/
def m095 : ℕ := 8556839292003942

/-- Fuel-based base-2 logarithm, structurally recursive so that concrete
values reduce by kernel evaluation. -/
def log2F : ℕ → ℕ → ℕ
  | 0, _ => 0
  | fuel + 1, n => if n < 2 then 0 else log2F fuel (n / 2) + 1

/-- `⌊log₂ n⌋` (and `0` for `n ≤ 1`). -/
def log2n (n : ℕ) : ℕ := log2F n n

/-- Round the integer `P` to 53 significant bits, round-to-nearest with
ties-to-even: the numerator of the double nearest to `P / 2^53`, scaled
back by `2^53`. -/
def rne53 (P : ℕ) : ℕ :=
  if P < 2 ^ 53 then P
  else
    (if 2 * (P % 2 ^ (log2n P - 52)) < 2 ^ (log2n P - 52) then
        P / 2 ^ (log2n P - 52)
      else if 2 * (P % 2 ^ (log2n P - 52)) > 2 ^ (log2n P - 52) then
        P / 2 ^ (log2n P - 52) + 1
      else if P / 2 ^ (log2n P - 52) % 2 = 0 then
        P / 2 ^ (log2n P - 52)
      else P / 2 ^ (log2n P - 52) + 1) *
      2 ^ (log2n P - 52)

/-- `int(n * (m / 2^53))` under Python float semantics: round the exact
product to binary64, then truncate.  For `n = value` and `m = m07` this is
`int(value * 0.7)`. -/
def pyIntMul (n m : ℕ) : ℕ :=
  rne53 (n * m) / 2 ^ 53

/-! ### The two `ratio_multiplier` callables

The script defines `ratio_multiplier` twice.  The first (with
`multiplier = {0: 0.5, 1: 0.7, 2: 0.95}`) is passed to `make_imbalance`;
the second definition (with `multiplier = {1: 0.7, 2: 0.95}` and a
`key in multiplier` guard) rebinds the name before the final
`RandomUnderSampler` call.  Both update each entry of `Counter(y)`
independently, so they are maps over the counter. -/

/-- First `ratio_multiplier` definition: `multiplier = {0: 0.5, 1: 0.7,
2: 0.95}`, every class rescaled by `int(value * multiplier[key])`. -/
def ratio_multiplier_v1 (y : List ℕ) : List (ℕ × ℕ) :=
  (Counter y).map fun p =>
    if p.1 = 0 then (p.1, pyIntMul p.2 m05)
    else if p.1 = 1 then (p.1, pyIntMul p.2 m07)
    else if p.1 = 2 then (p.1, pyIntMul p.2 m095)
    else p

/-- Second `ratio_multiplier` definition, the one in scope at the final
`RandomUnderSampler` call: `multiplier = {1: 0.7, 2: 0.95}`, entries with
a key outside `multiplier` are left unchanged. -/
def ratio_multiplier_v2 (y : List ℕ) : List (ℕ × ℕ) :=
  (Counter y).map fun p =>
    if p.1 = 1 then (p.1, pyIntMul p.2 m07)
    else if p.1 = 2 then (p.1, pyIntMul p.2 m095)
    else p

/-- Per-key rescaling function of the second `ratio_multiplier`. -/
def rmV2update (k c : ℕ) : ℕ :=
  if k = 1 then pyIntMul c m07
  else if k = 2 then pyIntMul c m095
  else c

/-! ### Sampling-target specifications and the script

`sampling_target` values are dictionaries, floats (scaled to per-mille to
stay exact), policy strings, lists of classes, or callables.  Callables
are referenced by name so that the syntactic call list stays decidable;
`interpCallable` gives their semantics. -/

/-- Names of the callables the script passes as sampling targets. -/
inductive CallableId
  | rmV1
  | rmV2
  deriving DecidableEq, Repr

/-- Semantics of a callable sampling target. -/
def interpCallable : CallableId → (List ℕ → List (ℕ × ℕ))
  | CallableId.rmV1 => ratio_multiplier_v1
  | CallableId.rmV2 => ratio_multiplier_v2

/-- The five shapes of the `sampling_target` parameter appearing in the
script.  The float `0.8` is recorded as `4/5` (numerator, denominator). -/
inductive SamplingTarget
  | stDict (d : List (ℕ × ℕ))
  | stFloat (num den : ℕ)
  | stStr (s : String)
  | stList (classes : List ℕ)
  | stCallable (f : CallableId)
  deriving DecidableEq, Repr

/-- Shape classifier for sampling targets. -/
inductive STShape
  | dictShape
  | floatShape
  | strShape
  | listShape
  | callableShape
  deriving DecidableEq, Repr

/-- The shape of a sampling target. -/
def shapeOf : SamplingTarget → STShape
  | SamplingTarget.stDict _ => STShape.dictShape
  | SamplingTarget.stFloat _ _ => STShape.floatShape
  | SamplingTarget.stStr _ => STShape.strShape
  | SamplingTarget.stList _ => STShape.listShape
  | SamplingTarget.stCallable _ => STShape.callableShape

/-- The resampling entry points the script calls. -/
inductive Method
  | makeImbalance
  | randomUnder
  | randomOver
  | tomekLinks
  deriving DecidableEq, Repr

/-- Value tokens: one for each distinct label vector the script ever
holds.  `vIris` is `iris.target`; `vImb1`/`vImb2` are the outputs of the
two `make_imbalance` calls; `vBin` is the binary subsample `binary_y`;
`vRes1` … `vRes9` are the nine `fit_sample` outputs.  `vUndef` is the
value of a variable before its first assignment. -/
inductive Val
  | vUndef
  | vIris
  | vImb1
  | vImb2
  | vBin
  | vRes1 | vRes2 | vRes3 | vRes4 | vRes5 | vRes6 | vRes7 | vRes8 | vRes9
  deriving DecidableEq, Repr, Fintype

/-- The script variables holding label vectors (`iris.target` is a fixed
input, not a variable). -/
inductive YVar
  | yv      -- `y`
  | binYv   -- `binary_y`
  | yResv   -- `y_res`
  deriving DecidableEq, Repr

/-- A reference to a label vector in an argument position. -/
inductive YExpr
  | eIris
  | evar (v : YVar)
  deriving DecidableEq, Repr

/-- How the `sampling_target` argument is supplied at a call site: the
current value of the `sampling_target` variable, or a value written
directly in the call (the two callables). -/
inductive STArg
  | fromVar
  | lit (st : SamplingTarget)
  deriving DecidableEq, Repr

/-- The statements of the script, in source order. -/
inductive Stmt
  | sPrint
  | sPrintCounter (e : YExpr)
  | sPlot (e : YExpr)
  | sAssignST (st : SamplingTarget)
  | sTransform (m : Method) (st : STArg) (src : YExpr) (out : Val)
  | sMask (src : YVar) (out : Val)
  | sShow
  deriving DecidableEq, Repr

/-- Observable events of a run (value level). -/
inductive Event
  | plotEv (v : Val)
  | transEv (src out : Val)
  | maskEv (src out : Val)
  | showEv
  deriving DecidableEq, Repr

/-- Errors raised inside the external library. -/
inductive PyErr
  | valueError
  | otherError
  deriving DecidableEq, Repr

/-- Execution state: the environment of label-vector variables, the
`sampling_target` variable, the collected external calls, the event
trace, matplotlib bookkeeping, and the printed counters. -/
structure PState where
  env : YVar → Val
  stVar : SamplingTarget
  calls : List (Method × SamplingTarget)
  events : List Event
  figsCreated : ℕ
  displayed : ℕ
  printed : List Val
  callIdx : ℕ

/-- Value of a label-vector reference in a state. -/
def evalY (env : YVar → Val) : YExpr → Val
  | YExpr.eIris => Val.vIris
  | YExpr.evar v => env v

/-- The sampling target actually passed at a call site. -/
def evalST (s : PState) : STArg → SamplingTarget
  | STArg.fromVar => s.stVar
  | STArg.lit st => st

/-- One step of the script.  External calls consult the `oracle`: `none`
means the library call returns normally, `some e` means it raises `e`;
nothing in the script catches an exception, so a raise aborts the run. -/
def stepStmt (oracle : ℕ → Option PyErr) (st : Stmt) (s : PState) :
    Except PyErr PState :=
  match st with
  | Stmt.sPrint => Except.ok s
  | Stmt.sPrintCounter e =>
      Except.ok { s with printed := s.printed ++ [evalY s.env e] }
  | Stmt.sPlot e =>
      Except.ok { s with
        figsCreated := s.figsCreated + 1,
        events := s.events ++ [Event.plotEv (evalY s.env e)] }
  | Stmt.sAssignST t => Except.ok { s with stVar := t }
  | Stmt.sTransform m t src out =>
      match oracle s.callIdx with
      | some e => Except.error e
      | none =>
          Except.ok { s with
            env := fun w =>
              if w = (match m with
                | Method.makeImbalance => YVar.yv
                | _ => YVar.yResv) then out else s.env w,
            calls := s.calls ++ [(m, evalST s t)],
            events := s.events ++ [Event.transEv (evalY s.env src) out],
            callIdx := s.callIdx + 1 }
  | Stmt.sMask src out =>
      Except.ok { s with
        env := fun w => if w = YVar.binYv then out else s.env w,
        events := s.events ++ [Event.maskEv (s.env src) out] }
  | Stmt.sShow =>
      Except.ok { s with
        displayed := s.figsCreated,
        events := s.events ++ [Event.showEv] }

/-- Run a list of statements; an uncaught exception aborts the rest. -/
def execStmts (oracle : ℕ → Option PyErr) : List Stmt → PState → Except PyErr PState
  | [], s => Except.ok s
  | st :: rest, s =>
      match stepStmt oracle st s with
      | Except.error e => Except.error e
      | Except.ok s' => execStmts oracle rest s'

/-- Initial state of the run. -/
def initState : PState :=
  { env := fun _ => Val.vUndef
    stVar := SamplingTarget.stDict []
    calls := []
    events := []
    figsCreated := 0
    displayed := 0
    printed := []
    callIdx := 0 }

/-- The script `examples/plot_sampling_target_usage.py`, statement by
statement (line numbers in comments). -/
def script : List Stmt :=
  [ Stmt.sPrint,                                                    -- l.28 print(__doc__)
    Stmt.sPrintCounter YExpr.eIris,                                 -- l.56
    Stmt.sPlot YExpr.eIris,                                         -- l.58
    Stmt.sAssignST (SamplingTarget.stDict [(0, 10), (1, 20), (2, 30)]),  -- l.60
    Stmt.sTransform Method.makeImbalance STArg.fromVar YExpr.eIris Val.vImb1,  -- l.61
    Stmt.sPrintCounter (YExpr.evar YVar.yv),                        -- l.63
    Stmt.sPlot (YExpr.evar YVar.yv),                                -- l.66
    Stmt.sTransform Method.makeImbalance
      (STArg.lit (SamplingTarget.stCallable CallableId.rmV1)) YExpr.eIris Val.vImb2,  -- l.83
    Stmt.sPrintCounter (YExpr.evar YVar.yv),                        -- l.85
    Stmt.sPlot (YExpr.evar YVar.yv),                                -- l.88
    Stmt.sMask YVar.yv Val.vBin,                                    -- l.105-107
    Stmt.sAssignST (SamplingTarget.stFloat 4 5),                    -- l.109 (0.8)
    Stmt.sTransform Method.randomUnder STArg.fromVar
      (YExpr.evar YVar.binYv) Val.vRes1,                            -- l.111-112
    Stmt.sPrintCounter (YExpr.evar YVar.yResv),                     -- l.113
    Stmt.sPlot (YExpr.evar YVar.yResv),                             -- l.117
    Stmt.sTransform Method.randomOver STArg.fromVar
      (YExpr.evar YVar.binYv) Val.vRes2,                            -- l.126-127
    Stmt.sPrintCounter (YExpr.evar YVar.yResv),                     -- l.128
    Stmt.sPlot (YExpr.evar YVar.yResv),                             -- l.132
    Stmt.sAssignST (SamplingTarget.stStr "not minority"),           -- l.142
    Stmt.sTransform Method.randomUnder STArg.fromVar
      (YExpr.evar YVar.yv) Val.vRes3,                               -- l.144-145
    Stmt.sPrintCounter (YExpr.evar YVar.yResv),                     -- l.146
    Stmt.sPlot (YExpr.evar YVar.yResv),                             -- l.149
    Stmt.sAssignST (SamplingTarget.stStr "not majority"),           -- l.151
    Stmt.sTransform Method.randomOver STArg.fromVar
      (YExpr.evar YVar.yv) Val.vRes4,                               -- l.153-154
    Stmt.sPrintCounter (YExpr.evar YVar.yResv),                     -- l.155
    Stmt.sPlot (YExpr.evar YVar.yResv),                             -- l.158
    Stmt.sAssignST (SamplingTarget.stStr "not minority"),           -- l.164
    Stmt.sTransform Method.tomekLinks STArg.fromVar
      (YExpr.evar YVar.yv) Val.vRes5,                               -- l.165-166
    Stmt.sPrintCounter (YExpr.evar YVar.yResv),                     -- l.167
    Stmt.sPlot (YExpr.evar YVar.yResv),                             -- l.170
    Stmt.sAssignST (SamplingTarget.stDict [(0, 10), (1, 15), (2, 20)]),  -- l.182
    Stmt.sTransform Method.randomUnder STArg.fromVar
      (YExpr.evar YVar.yv) Val.vRes6,                               -- l.184-185
    Stmt.sPrintCounter (YExpr.evar YVar.yResv),                     -- l.186
    Stmt.sPlot (YExpr.evar YVar.yResv),                             -- l.189
    Stmt.sAssignST (SamplingTarget.stDict [(0, 25), (1, 35), (2, 47)]),  -- l.191
    Stmt.sTransform Method.randomOver STArg.fromVar
      (YExpr.evar YVar.yv) Val.vRes7,                               -- l.193-194
    Stmt.sPrintCounter (YExpr.evar YVar.yResv),                     -- l.195
    Stmt.sPlot (YExpr.evar YVar.yResv),                             -- l.198
    Stmt.sAssignST (SamplingTarget.stList [0, 1, 2]),               -- l.208
    Stmt.sTransform Method.tomekLinks STArg.fromVar
      (YExpr.evar YVar.yv) Val.vRes8,                               -- l.209-210
    Stmt.sPrintCounter (YExpr.evar YVar.yResv),                     -- l.211
    Stmt.sPlot (YExpr.evar YVar.yResv),                             -- l.214
    Stmt.sTransform Method.randomUnder
      (STArg.lit (SamplingTarget.stCallable CallableId.rmV2))
      (YExpr.evar YVar.yv) Val.vRes9,                               -- l.234-235
    Stmt.sPrintCounter (YExpr.evar YVar.yResv),                     -- l.237
    Stmt.sPlot (YExpr.evar YVar.yResv),                             -- l.239
    Stmt.sShow ]                                                    -- l.241

/-- The final state of a run in which no library call raises. -/
def finalState : PState :=
  match execStmts (fun _ => none) script initState with
  | Except.ok s => s
  | Except.error _ => initState

/-- The `(method, sampling_target)` pairs of the external calls the script
makes, in order. -/
def scriptCalls : List (Method × SamplingTarget) :=
  finalState.calls

/-- The event trace of the failure-free run. -/
def scriptTrace : List Event :=
  finalState.events

inductive RowOp
  | resample (idx : List ℕ)
  | maskBy (p : ℕ → Bool)

/-- Apply a row operation to a feature matrix and a label vector: the same
index selection is applied to both. -/
def applyOp : RowOp → List (List ℚ) × List ℕ → List (List ℚ) × List ℕ
  | RowOp.resample idx, (X, y) =>
      (idx.map fun i => X.getD i [], idx.map fun i => y.getD i 0)
  | RowOp.maskBy p, (X, y) =>
      (((X.zip y).filter fun r => p r.2).map Prod.fst,
       ((X.zip y).filter fun r => p r.2).map Prod.snd)

/-- A pipeline of transformations, as the script chains them. -/
def applyOps (ops : List RowOp) (Xy : List (List ℚ) × List ℕ) :
    List (List ℚ) × List ℕ :=
  ops.foldl (fun acc op => applyOp op acc) Xy

/-! ### The data `plot_pie` hands to `ax.pie` -/

/-- The `labels` list built by `plot_pie` (`list(target_stats.keys())`). -/
def plot_pie_labels (y : List ℕ) : List ℕ :=
  keysC (Counter y)

/-- The `sizes` list built by `plot_pie` (`list(target_stats.values())`). -/
def plot_pie_sizes (y : List ℕ) : List ℕ :=
  (Counter y).map Prod.snd

/-- The `explode` tuple built by `plot_pie`
(`tuple([0.1] * len(target_stats))`). -/
def plot_pie_explode (y : List ℕ) : List ℚ :=
  List.replicate (Counter y).length (1 / 10)

/-- Figure bookkeeping over the event trace: `plot_pie` calls
`plt.subplots()` (one new figure each), `plt.show()` displays all
figures created so far. -/
def stepFig (st : ℕ × ℕ) (e : Event) : ℕ × ℕ :=
  match e with
  | Event.plotEv _ => (st.1 + 1, st.2)
  | Event.showEv => (st.1, st.1)
  | _ => st

/-- Number of external library calls in a statement list. -/
def countTrans : List Stmt → ℕ
  | [] => 0
  | Stmt.sTransform _ _ _ _ :: rest => countTrans rest + 1
  | Stmt.sPrint :: rest => countTrans rest
  | Stmt.sPrintCounter _ :: rest => countTrans rest
  | Stmt.sPlot _ :: rest => countTrans rest
  | Stmt.sAssignST _ :: rest => countTrans rest
  | Stmt.sMask _ _ :: rest => countTrans rest
  | Stmt.sShow :: rest => countTrans rest

/-- An oracle whose very first external call raises. -/
def oracleFail0 : ℕ → Option PyErr :=
  fun k => if k = 0 then some PyErr.valueError else none

theorem sumValues_incr (m : List (ℕ × ℕ)) (k : ℕ) :
    sumValues (incr m k) = sumValues m + 1 := by
  induction m with
  | nil => simp [incr, sumValues]
  | cons p t ih =>
    obtain ⟨a, c⟩ := p
    by_cases h : a = k <;> simp [incr, h, sumValues] at ih ⊢ <;> omega

theorem sumValues_foldl (y : List ℕ) :
    ∀ m : List (ℕ × ℕ), sumValues (y.foldl incr m) = sumValues m + y.length := by
  induction y with
  | nil => intro m; simp
  | cons a t ih =>
    intro m
    simp only [List.foldl_cons, List.length_cons, ih (incr m a), sumValues_incr]
    omega

theorem keysC_cons (p : ℕ × ℕ) (t : List (ℕ × ℕ)) :
    keysC (p :: t) = p.1 :: keysC t := rfl

theorem lookupC_eq_none_iff (m : List (ℕ × ℕ)) (k : ℕ) :
    lookupC m k = none ↔ k ∉ keysC m := by
  induction m with
  | nil => simp [lookupC, keysC]
  | cons p t ih =>
    rw [keysC_cons]
    by_cases h : p.1 = k
    · simp [lookupC, h]
    · simp [lookupC, h, ih, List.mem_cons, Ne.symm h]

theorem lookupC_incr (m : List (ℕ × ℕ)) (a k : ℕ) :
    lookupC (incr m a) k =
      if k = a then
        (match lookupC m a with
          | some c => some (c + 1)
          | none => some 1)
      else lookupC m k := by
  induction m with
  | nil => by_cases h : k = a <;> simp [incr, lookupC, h, Ne.symm]
  | cons p t ih =>
    obtain ⟨b, c⟩ := p
    by_cases hba : b = a
    · subst hba
      by_cases hk : k = b <;> simp [incr, lookupC, hk, Ne.symm]
    · by_cases hk : k = b
      · subst hk
        simp [incr, lookupC, hba, Ne.symm hba, ih]
      · have hbk : ¬b = k := fun h => hk h.symm
        simp [incr, lookupC, hba, hk, hbk, ih]

theorem keysC_incr (m : List (ℕ × ℕ)) (a : ℕ) :
    keysC (incr m a) = if a ∈ keysC m then keysC m else keysC m ++ [a] := by
  induction m with
  | nil => simp [incr, keysC]
  | cons p t ih =>
    obtain ⟨b, c⟩ := p
    by_cases hba : b = a
    · simp [incr, keysC, hba]
    · have hab : a ≠ b := Ne.symm hba
      have hstep : incr ((b, c) :: t) a = (b, c) :: incr t a := by
        simp [incr, hba]
      rw [hstep, keysC_cons, keysC_cons, ih]
      by_cases hm : a ∈ keysC t <;> simp [hm, hab, List.mem_cons]

theorem nodup_keysC_incr (m : List (ℕ × ℕ)) (a : ℕ)
    (h : (keysC m).Nodup) : (keysC (incr m a)).Nodup := by
  rw [keysC_incr]
  by_cases hm : a ∈ keysC m
  · simpa [hm] using h
  · simpa [hm, List.nodup_append, hm] using h

theorem counterInv_incr {m : List (ℕ × ℕ)} {p : List ℕ} (a : ℕ)
    (h : counterInv m p) : counterInv (incr m a) (p ++ [a]) := by
  obtain ⟨hnd, hlk⟩ := h
  refine ⟨nodup_keysC_incr m a hnd, fun k => ?_⟩
  rw [lookupC_incr]
  by_cases hk : k = a
  · subst hk
    have := hlk k
    by_cases h0 : p.count k = 0 <;>
      simp [h0, this, List.count_append] at *
  · have := hlk k
    have hc : (p ++ [a]).count k = p.count k := by
      simp [List.count_append, List.count_singleton]
      omega
    simp [hk, hc, this]

theorem counterInv_foldl (y : List ℕ) :
    ∀ (m : List (ℕ × ℕ)) (p : List ℕ), counterInv m p →
      counterInv (y.foldl incr m) (p ++ y) := by
  induction y with
  | nil => intro m p h; simpa using h
  | cons a t ih =>
    intro m p h
    have h' := counterInv_incr a h
    have := ih (incr m a) (p ++ [a]) h'
    simpa [List.append_assoc] using this

theorem counterInv_Counter (y : List ℕ) : counterInv (Counter y) y := by
  have : counterInv ([] : List (ℕ × ℕ)) [] := by
    constructor
    · simp [keysC]
    · intro k; simp [lookupC]
  simpa using counterInv_foldl y [] [] this

theorem Counter_keys_nodup (y : List ℕ) : (keysC (Counter y)).Nodup :=
  (counterInv_Counter y).1

theorem Counter_lookup (y : List ℕ) (k : ℕ) :
    lookupC (Counter y) k = if y.count k = 0 then none else some (y.count k) :=
  (counterInv_Counter y).2 k

theorem mem_keysC_Counter (y : List ℕ) (k : ℕ) :
    k ∈ keysC (Counter y) ↔ k ∈ y := by
  have h := Counter_lookup y k
  constructor
  · intro hk
    have : lookupC (Counter y) k ≠ none := by
      intro hn
      exact ((lookupC_eq_none_iff _ k).1 hn) hk
    by_cases h0 : y.count k = 0
    · simp [h0] at h; exact absurd h this
    · exact List.count_pos_iff.1 (Nat.pos_of_ne_zero h0)
  · intro hk
    have h0 : y.count k ≠ 0 :=
      Nat.pos_iff_ne_zero.1 (List.count_pos_iff.2 hk)
    simp [h0] at h
    by_contra hnk
    rw [(lookupC_eq_none_iff _ k).2 hnk] at h
    exact Option.noConfusion h

theorem lookupC_of_mem {m : List (ℕ × ℕ)} (hnd : (keysC m).Nodup)
    {p : ℕ × ℕ} (hp : p ∈ m) : lookupC m p.1 = some p.2 := by
  induction m with
  | nil => cases hp
  | cons q t ih =>
    rw [keysC_cons, List.nodup_cons] at hnd
    rcases List.mem_cons.1 hp with rfl | hp
    · simp [lookupC]
    · have hq : q.1 ≠ p.1 := by
        have hmem : p.1 ∈ keysC t := List.mem_map_of_mem Prod.fst hp
        intro h
        exact hnd.1 (h ▸ hmem)
      simp [lookupC, hq, ih hnd.2 hp]

theorem Counter_snd_eq_count (y : List ℕ) {p : ℕ × ℕ}
    (hp : p ∈ Counter y) : p.2 = y.count p.1 := by
  have h := lookupC_of_mem (Counter_keys_nodup y) hp
  rw [Counter_lookup] at h
  by_cases h0 : y.count p.1 = 0 <;> simp [h0] at h
  exact h.symm

theorem log2F_self_le :
    ∀ fuel n : ℕ, 1 ≤ n → n ≤ fuel → 2 ^ log2F fuel n ≤ n := by
  intro fuel
  induction fuel with
  | zero => intro n h1 h2; omega
  | succ f ih =>
    intro n h1 h2
    by_cases h : n < 2
    · have hn : n = 1 := by omega
      subst hn
      simp [log2F]
    · push_neg at h
      have hrec : log2F (f + 1) n = log2F f (n / 2) + 1 := by
        simp [log2F, Nat.not_lt.2 h]
      have hle : n / 2 ≤ f := by omega
      have h1' : 1 ≤ n / 2 := by omega
      have hh := ih (n / 2) h1' hle
      rw [hrec, pow_succ]
      have := Nat.mul_le_mul_right 2 hh
      omega

theorem lt_log2F_self : ∀ fuel n : ℕ, n ≤ fuel → n < 2 ^ (log2F fuel n + 1) := by
  intro fuel
  induction fuel with
  | zero =>
    intro n h
    have hn : n = 0 := by omega
    subst hn
    simp [log2F]
  | succ f ih =>
    intro n h
    by_cases hlt : n < 2
    · have : log2F (f + 1) n = 0 := by simp [log2F, hlt]
      rw [this]
      omega
    · push_neg at hlt
      have hrec : log2F (f + 1) n = log2F f (n / 2) + 1 := by
        simp [log2F, Nat.not_lt.2 hlt]
      have hle : n / 2 ≤ f := by omega
      have hh := ih (n / 2) hle
      rw [hrec]
      have h2 : 2 ^ (log2F f (n / 2) + 1 + 1) = 2 ^ (log2F f (n / 2) + 1) * 2 :=
        pow_succ 2 _
      have := Nat.mul_le_mul_right 2 (Nat.succ_le_of_lt hh)
      omega

theorem log2n_self_le {n : ℕ} (h : n ≠ 0) : 2 ^ log2n n ≤ n :=
  log2F_self_le n n (by omega) le_rfl

theorem lt_log2n_self (n : ℕ) : n < 2 ^ (log2n n + 1) :=
  lt_log2F_self n n le_rfl

theorem rne53_le (P : ℕ) (hP : 2 ^ 53 ≤ P) : rne53 P ≤ P + 2 ^ (log2n P - 52) := by
  rw [rne53, if_neg (by omega)]
  have hq : P / 2 ^ (log2n P - 52) * 2 ^ (log2n P - 52) ≤ P :=
    Nat.div_mul_le_self P _
  split
  · omega
  · split
    · have : (P / 2 ^ (log2n P - 52) + 1) * 2 ^ (log2n P - 52) =
          P / 2 ^ (log2n P - 52) * 2 ^ (log2n P - 52) + 2 ^ (log2n P - 52) := by
        ring
      omega
    · split
      · omega
      · have : (P / 2 ^ (log2n P - 52) + 1) * 2 ^ (log2n P - 52) =
            P / 2 ^ (log2n P - 52) * 2 ^ (log2n P - 52) + 2 ^ (log2n P - 52) := by
          ring
        omega

theorem pyIntMul_le (n m : ℕ) (hm : m + 2 ≤ 2 ^ 53) : pyIntMul n m ≤ n := by
  rw [pyIntMul]
  have h53 : (0 : ℕ) < 2 ^ 53 := by positivity
  rw [← Nat.lt_succ_iff, Nat.succ_eq_add_one, Nat.div_lt_iff_lt_mul h53]
  by_cases hP : n * m < 2 ^ 53
  · rw [rne53, if_pos hP]
    calc n * m < 2 ^ 53 := hP
      _ ≤ (n + 1) * 2 ^ 53 := Nat.le_mul_of_pos_left _ (by omega)
  · push_neg at hP
    have hn0 : n ≠ 0 := by
      intro h; rw [h] at hP; simp at hP
    have hP0 : n * m ≠ 0 := by
      intro h; rw [h] at hP; omega
    have hlog : 2 ^ log2n (n * m) ≤ n * m := log2n_self_le hP0
    have hlog53 : 53 ≤ log2n (n * m) := by
      by_contra hc
      push_neg at hc
      have : (2 : ℕ) ^ (log2n (n * m) + 1) ≤ 2 ^ 53 :=
        Nat.pow_le_pow_right (by omega) (by omega)
      have := lt_log2n_self (n * m)
      omega
    have hs : log2n (n * m) - 52 + 52 = log2n (n * m) := by omega
    have hsP : 2 ^ (log2n (n * m) - 52) * 2 ^ 52 ≤ n * m := by
      rw [← pow_add, hs]; exact hlog
    -- 2 ^ (log2 - 52) ≤ 2 * n  because  2 ^ (log2 - 52) * 2 ^ 52 ≤ n * m < n * 2 ^ 53
    have hsn : 2 ^ (log2n (n * m) - 52) ≤ 2 * n := by
      have hpos : 0 < n := Nat.pos_of_ne_zero hn0
      have h1 : n * m < n * 2 ^ 53 :=
        mul_lt_mul_of_pos_left (show m < 2 ^ 53 by omega) hpos
      have h2 : 2 ^ (log2n (n * m) - 52) * 2 ^ 52 < 2 * n * 2 ^ 52 := by
        calc 2 ^ (log2n (n * m) - 52) * 2 ^ 52 ≤ n * m := hsP
          _ < n * 2 ^ 53 := h1
          _ = 2 * n * 2 ^ 52 := by ring
      exact le_of_lt (Nat.lt_of_mul_lt_mul_right h2)
    have hb := rne53_le (n * m) hP
    have hnm : n * m ≤ n * 2 ^ 53 - 2 * n := by
      have : n * m ≤ n * (2 ^ 53 - 2) := Nat.mul_le_mul_left n (by omega)
      have h2 : n * (2 ^ 53 - 2) = n * 2 ^ 53 - 2 * n := by
        rw [Nat.mul_sub]; ring_nf
      omega
    have hfin : n * 2 ^ 53 ≤ (n + 1) * 2 ^ 53 - 2 ^ 53 + 2 ^ 53 := by
      have : (n + 1) * 2 ^ 53 = n * 2 ^ 53 + 2 ^ 53 := by ring
      omega
    have hgoal : (n + 1) * 2 ^ 53 = n * 2 ^ 53 + 2 ^ 53 := by ring
    omega

theorem lookupC_map_reindex (h : ℕ → ℕ → ℕ) (l : List (ℕ × ℕ)) (k : ℕ) :
    lookupC (l.map fun p => (p.1, h p.1 p.2)) k =
      (lookupC l k).map (h k) := by
  induction l with
  | nil => simp [lookupC]
  | cons p t ih =>
    by_cases hp : p.1 = k
    · subst hp; simp [lookupC, ih]
    · simp [lookupC, hp, ih]

theorem keysC_map_reindex (h : ℕ → ℕ → ℕ) (l : List (ℕ × ℕ)) :
    keysC (l.map fun p => (p.1, h p.1 p.2)) = keysC l := by
  induction l with
  | nil => rfl
  | cons p t ih =>
    rw [List.map_cons, keysC_cons, keysC_cons, ih]

theorem ratio_multiplier_v2_eq_map (y : List ℕ) :
    ratio_multiplier_v2 y =
      (Counter y).map fun p => (p.1, rmV2update p.1 p.2) := by
  rw [ratio_multiplier_v2]
  apply List.map_congr_left
  intro p _
  by_cases h1 : p.1 = 1
  · simp [rmV2update, h1]
  · by_cases h2 : p.1 = 2 <;> simp [rmV2update, h1, h2]

theorem scriptCalls_eq :
    scriptCalls =
      [ (Method.makeImbalance, SamplingTarget.stDict [(0, 10), (1, 20), (2, 30)]),
        (Method.makeImbalance, SamplingTarget.stCallable CallableId.rmV1),
        (Method.randomUnder, SamplingTarget.stFloat 4 5),
        (Method.randomOver, SamplingTarget.stFloat 4 5),
        (Method.randomUnder, SamplingTarget.stStr "not minority"),
        (Method.randomOver, SamplingTarget.stStr "not majority"),
        (Method.tomekLinks, SamplingTarget.stStr "not minority"),
        (Method.randomUnder, SamplingTarget.stDict [(0, 10), (1, 15), (2, 20)]),
        (Method.randomOver, SamplingTarget.stDict [(0, 25), (1, 35), (2, 47)]),
        (Method.tomekLinks, SamplingTarget.stList [0, 1, 2]),
        (Method.randomUnder, SamplingTarget.stCallable CallableId.rmV2) ] := by
  rfl

theorem scriptTrace_eq :
    scriptTrace =
      [ Event.plotEv Val.vIris,
        Event.transEv Val.vIris Val.vImb1,
        Event.plotEv Val.vImb1,
        Event.transEv Val.vIris Val.vImb2,
        Event.plotEv Val.vImb2,
        Event.maskEv Val.vImb2 Val.vBin,
        Event.transEv Val.vBin Val.vRes1,
        Event.plotEv Val.vRes1,
        Event.transEv Val.vBin Val.vRes2,
        Event.plotEv Val.vRes2,
        Event.transEv Val.vImb2 Val.vRes3,
        Event.plotEv Val.vRes3,
        Event.transEv Val.vImb2 Val.vRes4,
        Event.plotEv Val.vRes4,
        Event.transEv Val.vImb2 Val.vRes5,
        Event.plotEv Val.vRes5,
        Event.transEv Val.vImb2 Val.vRes6,
        Event.plotEv Val.vRes6,
        Event.transEv Val.vImb2 Val.vRes7,
        Event.plotEv Val.vRes7,
        Event.transEv Val.vImb2 Val.vRes8,
        Event.plotEv Val.vRes8,
        Event.transEv Val.vImb2 Val.vRes9,
        Event.plotEv Val.vRes9,
        Event.showEv ] := by
  rfl

theorem applyOp_aligned (op : RowOp) (Xy : List (List ℚ) × List ℕ) :
    (applyOp op Xy).1.length = (applyOp op Xy).2.length := by
  obtain ⟨X, y⟩ := Xy
  cases op <;> simp [applyOp]

/-! ### The claims -/

/-- Claim C1: for every label vector `y`, the per-class counts of
`Counter(y)` sum to the length of `y`, so every class-distribution summary
the script prints satisfies `sum(Counter(y).values()) == len(y)`. -/
theorem C1_counts_sum_to_length (y : List ℕ) :
    sumValues (Counter y) = y.length := by
  have h := sumValues_foldl y []
  simpa [Counter, sumValues] using h

/-- Claim C2: across the script's demonstration blocks the
`sampling_target` arguments take exactly the five shapes — dict, float,
policy string, list of classes, callable — each shape occurs, and the
list shape is passed only to the cleaning method (`TomekLinks`). -/
theorem C2_five_shapes :
    (∃ c ∈ scriptCalls, shapeOf c.2 = STShape.dictShape) ∧
    (∃ c ∈ scriptCalls, shapeOf c.2 = STShape.floatShape) ∧
    (∃ c ∈ scriptCalls, shapeOf c.2 = STShape.strShape) ∧
    (∃ c ∈ scriptCalls, shapeOf c.2 = STShape.listShape) ∧
    (∃ c ∈ scriptCalls, shapeOf c.2 = STShape.callableShape) ∧
    (∀ c ∈ scriptCalls, shapeOf c.2 = STShape.listShape →
      c.1 = Method.tomekLinks) := by
  decide

/-- Claim C3 fails as stated: the claim reads "a pie chart of the class
distribution both before and after that transformation", but the input of
the under-sampling call on the binary subsample is `binary_y`, whose
class distribution is never rendered: no `plot_pie` call anywhere in the
script receives `binary_y`. -/
theorem C3_counterexample :
    scriptTrace.getD 6 Event.showEv = Event.transEv Val.vBin Val.vRes1 ∧
    ((scriptTrace.take 6).any fun e => e == Event.plotEv Val.vBin) = false ∧
    (scriptTrace.any fun e => e == Event.plotEv Val.vBin) = false := by
  decide

/-- Claim C3, amended: after every transformation (`make_imbalance` and
every `fit_sample`) the script renders a pie chart of that
transformation's output, and some pie chart has been rendered before
every transformation; moreover the pie chart of the input's distribution
has been rendered before every transformation whose input is not the
binary subsample `binary_y` (the two `fit_sample` calls on `binary_y`
are the exceptions: its distribution is never plotted). -/
theorem C3_amended_pie_before_after :
    ∀ (i : Fin scriptTrace.length) (u w : Val),
      scriptTrace.get i = Event.transEv u w →
      ((scriptTrace.drop (i.val + 1)).any fun e => e == Event.plotEv w) = true ∧
      ((scriptTrace.take i.val).any fun e =>
        match e with
        | Event.plotEv _ => true
        | _ => false) = true ∧
      (u ≠ Val.vBin →
        ((scriptTrace.take i.val).any fun e => e == Event.plotEv u) = true) := by
  decide

/-- Witness for the amended C3 at the first `make_imbalance` call
(trace position 1, input `iris.target`, output the first imbalanced
vector). -/
theorem C3_amended_witness :
    ((scriptTrace.drop 2).any fun e => e == Event.plotEv Val.vImb1) = true ∧
    ((scriptTrace.take 1).any fun e =>
      match e with
      | Event.plotEv _ => true
      | _ => false) = true ∧
    (Val.vIris ≠ Val.vBin →
      ((scriptTrace.take 1).any fun e => e == Event.plotEv Val.vIris) = true) :=
  C3_amended_pie_before_after ⟨1, by decide⟩ Val.vIris Val.vImb1 (by decide)

theorem rm2_lookup (y : List ℕ) (k : ℕ) :
    lookupC (ratio_multiplier_v2 y) k =
      (lookupC (Counter y) k).map fun c =>
        if k = 1 then pyIntMul c m07
        else if k = 2 then pyIntMul c m095
        else c := by
  rw [ratio_multiplier_v2_eq_map, lookupC_map_reindex rmV2update (Counter y) k]
  cases h : lookupC (Counter y) k with
  | none => simp
  | some c => simp [rmV2update]

/-- Claim C4 fails as stated: the claim says class 1's count `c` is
replaced by `floor(0.7 * c)`, but the code computes
`int(c * 0.7)` with `0.7` a binary64 double, which is smaller than
`7/10`; at `c = 90` (label vector of ninety `1`s) the code produces `62`
while `floor(0.7 * 90) = 63`. -/
theorem C4_counterexample :
    lookupC (ratio_multiplier_v2 (List.replicate 90 1)) 1 = some 62 ∧
    7 * 90 / 10 = 63 := by
  decide

/-- Claim C4, amended: the second `ratio_multiplier` definition shadows
the first, so the callable passed to `RandomUnderSampler` at the last
call site is the second one; for every label vector `y` it returns
`Counter(y)` with class 1's count `c` replaced by `int(c * 0.7)` and
class 2's count by `int(c * 0.95)` under IEEE-754 binary64 float
semantics (which equals `floor(0.7*c)` resp. `floor(0.95*c)` only for
small counts, e.g. not for `c = 90`), leaving the count of every other
class (in particular class 0) unchanged and the key order intact. -/
theorem C4_amended_shadowed_callable :
    scriptCalls.getD 10 (Method.makeImbalance, SamplingTarget.stDict []) =
      (Method.randomUnder, SamplingTarget.stCallable CallableId.rmV2) ∧
    interpCallable CallableId.rmV2 = ratio_multiplier_v2 ∧
    (∀ (y : List ℕ) (k : ℕ),
      lookupC (ratio_multiplier_v2 y) k =
        (lookupC (Counter y) k).map fun c =>
          if k = 1 then pyIntMul c m07
          else if k = 2 then pyIntMul c m095
          else c) ∧
    (∀ y : List ℕ, keysC (ratio_multiplier_v2 y) = keysC (Counter y)) := by
  refine ⟨by decide, rfl, rm2_lookup, fun y => ?_⟩
  rw [ratio_multiplier_v2_eq_map, keysC_map_reindex]

theorem applyOps_aligned (ops : List RowOp) :
    ∀ Xy : List (List ℚ) × List ℕ, Xy.1.length = Xy.2.length →
      (applyOps ops Xy).1.length = (applyOps ops Xy).2.length := by
  induction ops with
  | nil => intro Xy h; simpa [applyOps] using h
  | cons op rest ih =>
    intro Xy h
    have hstep := applyOp_aligned op Xy
    have := ih (applyOp op Xy) hstep
    simpa [applyOps] using this

/-- Claim C5 (the sampler bodies are modelled from the spec as row-index
selections): through any pipeline of the script's transformations
(`make_imbalance` / `fit_sample` resamplings and the binary mask), a
feature matrix and a label vector that start aligned by index keep the
same number of rows. -/
theorem C5_rows_labels_aligned (ops : List RowOp) (X : List (List ℚ))
    (y : List ℕ) (h : X.length = y.length) :
    (applyOps ops (X, y)).1.length = (applyOps ops (X, y)).2.length :=
  applyOps_aligned ops (X, y) h

/-- Witness for C5: a resampling followed by a mask on a concrete
2-row data set. -/
theorem C5_witness :
    ([[(1 : ℚ)], [2]] : List (List ℚ)).length = ([5, 7] : List ℕ).length ∧
    (applyOps [RowOp.resample [0, 0, 1], RowOp.maskBy fun k => k == 5]
        ([[(1 : ℚ)], [2]], [5, 7])).1.length =
      (applyOps [RowOp.resample [0, 0, 1], RowOp.maskBy fun k => k == 5]
        ([[(1 : ℚ)], [2]], [5, 7])).2.length :=
  ⟨rfl, C5_rows_labels_aligned [RowOp.resample [0, 0, 1],
    RowOp.maskBy fun k => k == 5] [[(1 : ℚ)], [2]] [5, 7] rfl⟩

/-- Claim C6: rendering and printing the class-distribution summary is
pure display: a `plot_pie` step changes nothing in the state except
creating one figure and appending a pie event computed fresh from the
current value of its argument, and a `print(... Counter(y))` step only
appends the current value to the printed log; the variable environment,
the `sampling_target` variable and everything else are untouched. -/
theorem C6_display_is_pure (oracle : ℕ → Option PyErr) (s : PState)
    (e : YExpr) :
    stepStmt oracle (Stmt.sPlot e) s =
      Except.ok { s with
        figsCreated := s.figsCreated + 1,
        events := s.events ++ [Event.plotEv (evalY s.env e)] } ∧
    stepStmt oracle (Stmt.sPrintCounter e) s =
      Except.ok { s with printed := s.printed ++ [evalY s.env e] } ∧
    (stepStmt oracle (Stmt.sPlot e) s).map PState.env = Except.ok s.env ∧
    (stepStmt oracle (Stmt.sPrintCounter e) s).map PState.env =
      Except.ok s.env ∧
    (stepStmt oracle (Stmt.sPlot e) s).map PState.stVar =
      Except.ok s.stVar :=
  ⟨rfl, rfl, rfl, rfl, rfl⟩

/-- Claim C7: every plotting call creates a new figure; the figures
accumulate undisplayed (displayed count stays `0` on every proper
prefix), and the single blocking `plt.show()` is the last operation of
the script, after which all created figures are displayed. -/
theorem C7_single_show_last :
    (scriptTrace.countP fun e => e == Event.showEv) = 1 ∧
    scriptTrace.drop (scriptTrace.length - 1) = [Event.showEv] ∧
    (scriptTrace.foldl stepFig (0, 0)).1 =
      (scriptTrace.countP fun e =>
        match e with
        | Event.plotEv _ => true
        | _ => false) ∧
    ((scriptTrace.take (scriptTrace.length - 1)).foldl stepFig (0, 0)).2 = 0 ∧
    (scriptTrace.foldl stepFig (0, 0)).2 =
      (scriptTrace.foldl stepFig (0, 0)).1 := by
  decide

theorem execStmts_error_propagates (oracle : ℕ → Option PyErr) (n : ℕ)
    (e : PyErr) (hfail : oracle n = some e)
    (hok : ∀ m, m < n → oracle m = none) :
    ∀ (stmts : List Stmt) (s : PState), s.callIdx ≤ n →
      n < s.callIdx + countTrans stmts →
      execStmts oracle stmts s = Except.error e := by
  intro stmts
  induction stmts with
  | nil => intro s h1 h2; simp [countTrans] at h2; omega
  | cons st rest ih =>
    intro s h1 h2
    cases st with
    | sTransform m t src out =>
      by_cases hc : s.callIdx = n
      · have hsome : oracle s.callIdx = some e := by rw [hc, hfail]
        simp only [execStmts, stepStmt, hsome]
      · have hlt : s.callIdx < n := by omega
        have hnone : oracle s.callIdx = none := hok _ hlt
        simp only [execStmts, stepStmt, hnone]
        apply ih
        · show s.callIdx + 1 ≤ n
          omega
        · show n < s.callIdx + 1 + countTrans rest
          have hct : countTrans (Stmt.sTransform m t src out :: rest) =
              countTrans rest + 1 := rfl
          omega
    | sPrint =>
      rw [execStmts, stepStmt]
      exact ih s h1 (by simpa [countTrans] using h2)
    | sPrintCounter a =>
      rw [execStmts, stepStmt]
      exact ih _ h1 (by simpa [countTrans] using h2)
    | sPlot a =>
      rw [execStmts, stepStmt]
      exact ih _ h1 (by simpa [countTrans] using h2)
    | sAssignST a =>
      rw [execStmts, stepStmt]
      exact ih _ h1 (by simpa [countTrans] using h2)
    | sMask a b =>
      rw [execStmts, stepStmt]
      exact ih _ h1 (by simpa [countTrans] using h2)
    | sShow =>
      rw [execStmts, stepStmt]
      exact ih _ h1 (by simpa [countTrans] using h2)

/-- Claim C8: the script has no exception-catching construct, so when any
of its external library calls raises, the run terminates with exactly
that error, uncaught and uninterpreted (here: for every oracle whose
first failure is at call `n`, the whole run returns that failure). -/
theorem C8_errors_uncaught (oracle : ℕ → Option PyErr) (n : ℕ) (e : PyErr)
    (hfail : oracle n = some e) (hok : ∀ m, m < n → oracle m = none)
    (hn : n < countTrans script) :
    execStmts oracle script initState = Except.error e := by
  apply execStmts_error_propagates oracle n e hfail hok script initState
  · show initState.callIdx ≤ n
    simp [initState]
  · show n < initState.callIdx + countTrans script
    simpa [initState] using hn

/-- Witness for C8: with a failure at the first external call
(`make_imbalance`), the run aborts with exactly that error. -/
theorem C8_witness :
    oracleFail0 0 = some PyErr.valueError ∧
    (∀ m, m < 0 → oracleFail0 m = none) ∧
    0 < countTrans script ∧
    execStmts oracleFail0 script initState = Except.error PyErr.valueError :=
  ⟨rfl, fun m hm => absurd hm (Nat.not_lt_zero m), by decide,
    C8_errors_uncaught oracleFail0 0 PyErr.valueError rfl
      (fun m hm => absurd hm (Nat.not_lt_zero m)) (by decide)⟩

/-- Claim C9: every target count the second `ratio_multiplier` requests
is at most the available count of that class in `y` (`int(c * 0.7)` and
`int(c * 0.95)` never exceed `c`), so the callable's output is a valid
under-sampling target. -/
theorem C9_targets_at_most_counts (y : List ℕ) (p : ℕ × ℕ)
    (hp : p ∈ ratio_multiplier_v2 y) : p.2 ≤ y.count p.1 := by
  rw [ratio_multiplier_v2_eq_map] at hp
  obtain ⟨q, hq, rfl⟩ := List.mem_map.1 hp
  have hcnt := Counter_snd_eq_count y hq
  show rmV2update q.1 q.2 ≤ y.count q.1
  rw [← hcnt, rmV2update]
  split
  · exact pyIntMul_le q.2 m07 (by decide)
  · split
    · exact pyIntMul_le q.2 m095 (by decide)
    · exact le_rfl

/-- Witness for C9: at `y = [1, 1, 2, 0]` the callable's entry for class
1 is `(1, int(2 * 0.7)) = (1, 1)` and `1 ≤ 2`. -/
theorem C9_witness :
    ((1, 1) : ℕ × ℕ) ∈ ratio_multiplier_v2 [1, 1, 2, 0] ∧
    ((1, 1) : ℕ × ℕ).2 ≤ ([1, 1, 2, 0] : List ℕ).count ((1, 1) : ℕ × ℕ).1 :=
  ⟨by decide, C9_targets_at_most_counts [1, 1, 2, 0] (1, 1) (by decide)⟩

/-- Claim C10: for every non-empty label vector, the `labels`, `sizes`
and `explode` sequences built by `plot_pie` have equal length — the
number of distinct labels —, `sizes[i]` is the count in `y` of
`labels[i]`, and every `explode` entry is `0.1`; the arguments handed to
`ax.pie` are mutually consistent. -/
theorem C10_plot_pie_consistent (y : List ℕ) (hy : y ≠ []) :
    (plot_pie_labels y).length = (plot_pie_sizes y).length ∧
    (plot_pie_sizes y).length = (plot_pie_explode y).length ∧
    (plot_pie_labels y).length = y.dedup.length ∧
    (∀ i, i < (plot_pie_labels y).length →
      (plot_pie_sizes y).getD i 0 = y.count ((plot_pie_labels y).getD i 0)) ∧
    (∀ q ∈ plot_pie_explode y, q = 1 / 10) := by
  refine ⟨?_, ?_, ?_, ?_, ?_⟩
  · simp [plot_pie_labels, plot_pie_sizes, keysC]
  · simp [plot_pie_sizes, plot_pie_explode]
  · have hperm : (keysC (Counter y)).Perm y.dedup := by
      rw [List.perm_ext_iff_of_nodup (Counter_keys_nodup y) (List.nodup_dedup y)]
      intro a
      rw [mem_keysC_Counter, List.mem_dedup]
    simpa [plot_pie_labels] using hperm.length_eq
  · intro i hi
    have hiC : i < (Counter y).length := by
      simpa [plot_pie_labels, keysC] using hi
    have hiS : i < (plot_pie_sizes y).length := by
      simpa [plot_pie_sizes]
    have hiL : i < (plot_pie_labels y).length := hi
    rw [List.getD_eq_getElem (plot_pie_sizes y) 0 hiS,
      List.getD_eq_getElem (plot_pie_labels y) 0 hiL]
    simp only [plot_pie_sizes, plot_pie_labels, keysC, List.getElem_map]
    exact Counter_snd_eq_count y (List.getElem_mem hiC)
  · intro q hq
    rw [plot_pie_explode] at hq
    exact List.eq_of_mem_replicate hq

/-- Witness for C10 at `y = [0, 1, 1]`. -/
theorem C10_witness :
    ([0, 1, 1] : List ℕ) ≠ [] ∧
    ((plot_pie_labels [0, 1, 1]).length = (plot_pie_sizes [0, 1, 1]).length ∧
    (plot_pie_sizes [0, 1, 1]).length = (plot_pie_explode [0, 1, 1]).length ∧
    (plot_pie_labels [0, 1, 1]).length = ([0, 1, 1] : List ℕ).dedup.length ∧
    (∀ i, i < (plot_pie_labels [0, 1, 1]).length →
      (plot_pie_sizes [0, 1, 1]).getD i 0 =
        ([0, 1, 1] : List ℕ).count ((plot_pie_labels [0, 1, 1]).getD i 0)) ∧
    (∀ q ∈ plot_pie_explode [0, 1, 1], q = 1 / 10)) :=
  ⟨by decide, C10_plot_pie_consistent [0, 1, 1] (by decide)⟩
